/-
Verification of the Identity & Artifact Provisioning Engine
(integration/nwo/token/fabric/fabric.go) of the fabric-token-sdk.

Shallow embedding: the Go structures become Lean structures, the Go
methods become pure Lean functions.  Go's in-place map/pointer mutation
is modelled by explicit state passing (an association-list store of
entries); a gomega `Expect` failure or a slice index-out-of-range panic
is modelled by an explicit failure flag / outcome value.  External
collaborators (crypto-material generator, public-params generator, the
file system) are modelled as function-valued record fields, quantified
over in the theorems.
-/
import Mathlib

namespace FabricTokenSDK

/-- TMS descriptor: (network, channel, namespace, driver) plus the
auxiliary public-parameter generation arguments and the chaincode
privacy flag (`tms.TokenChaincode.Private` in the source, flattened). -/
structure TMS where
  Network : String
  Channel : String
  Namespace : String
  Driver : String
  PublicParamsGenArgs : List String
  TokenChaincodePrivate : Bool
deriving DecidableEq, Repr

/-- An identity record of a wallet: opaque credential (its identifier)
plus the `Default` flag (`fabric.Identity`). -/
structure Identity where
  ID : String
  Default : Bool
deriving DecidableEq, Repr

/-- Conversion `Identity(id)` applied to a generator credential: the
`Default` flag starts out at Go's zero value `false`. -/
def toIdentity (c : String) : Identity := { ID := c, Default := false }

/-- Per-node wallet: four ordered role sequences, field order as in the
`Wallet` struct literal of `GenerateCryptoMaterial`. -/
structure Wallet where
  Certifiers : List Identity
  Issuers : List Identity
  Owners : List Identity
  Auditors : List Identity
deriving DecidableEq, Repr

/-- An FSC node together with the role options obtained from
`topology2.ToOptions(node.PlatformOpts())`: `opts.Issuers()`,
`opts.Owners()`, `opts.Auditor()`, `opts.Certifier()`; `ID` is
`node.ID()` and `Name` is `node.Name`. -/
structure Node where
  Name : String
  ID : String
  Issuers : List String
  Owners : List String
  Auditor : Bool
  Certifier : Bool
deriving DecidableEq, Repr

/-- Crypto material generator interface
(`generators.CryptoMaterialGenerator`): `Setup` may fail; each
GenerateXIdentities method returns one credential list for the passed
variadic name list.  The TMS and node arguments are kept so theorems
can quantify over generators whose output depends on them. -/
structure CryptoMaterialGenerator where
  Setup : TMS → Except String String
  GenerateIssuerIdentities : TMS → Node → List String → List String
  GenerateOwnerIdentities : TMS → Node → List String → List String
  GenerateAuditorIdentities : TMS → Node → List String → List String
  GenerateCertifierIdentities : TMS → Node → List String → List String

/-- `wallet.Issuers[len(wallet.Issuers)-1].Default = true`: set the
`Default` flag of the last element of a list. -/
def markLastDefault : List Identity → List Identity
  | [] => []
  | [x] => [{ x with Default := true }]
  | x :: y :: ys => x :: markLastDefault (y :: ys)

/-- `wallet.Auditors[0].Default = true`: set the `Default` flag of the
first element of a list. -/
def markHeadDefault : List Identity → List Identity
  | [] => []
  | x :: xs => { x with Default := true } :: xs

/-- Issuer-identities block of `GenerateCryptoMaterial`
(fabric.go lines 161-170).  If `opts.Issuers()` is non-empty the node's
own id is appended, the generator invoked once for the combined name
list, every returned credential appended as an Identity record, and the
last record's Default flag set.  Setting `Issuers[len-1]` on an empty
slice is a Go index-out-of-range panic, modelled by the `false` flag. -/
def issuersStep (gen : CryptoMaterialGenerator) (tms : TMS) (node : Node)
    (w : Wallet) : Wallet × Bool :=
  if node.Issuers.isEmpty then (w, true)
  else
    let ids := gen.GenerateIssuerIdentities tms node (node.Issuers ++ [node.ID])
    let l := w.Issuers ++ ids.map toIdentity
    if l.isEmpty then ({ w with Issuers := l }, false)
    else ({ w with Issuers := markLastDefault l }, true)

/-- Owner-identities block of `GenerateCryptoMaterial`
(fabric.go lines 172-182), identical in shape to the issuer block. -/
def ownersStep (gen : CryptoMaterialGenerator) (tms : TMS) (node : Node)
    (w : Wallet) : Wallet × Bool :=
  if node.Owners.isEmpty then (w, true)
  else
    let ids := gen.GenerateOwnerIdentities tms node (node.Owners ++ [node.ID])
    let l := w.Owners ++ ids.map toIdentity
    if l.isEmpty then ({ w with Owners := l }, false)
    else ({ w with Owners := markLastDefault l }, true)

/-- Auditor-identity block of `GenerateCryptoMaterial`
(fabric.go lines 184-189).  If the flag is set, the generator is called
with the single name `node.Name` and `ids[0]` is appended; indexing an
empty result is a Go panic, modelled by the `false` flag. -/
def auditorStep (gen : CryptoMaterialGenerator) (tms : TMS) (node : Node)
    (w : Wallet) : Wallet × Bool :=
  if node.Auditor then
    match gen.GenerateAuditorIdentities tms node [node.Name] with
    | [] => (w, false)
    | c :: _ =>
      ({ w with Auditors := markHeadDefault (w.Auditors ++ [toIdentity c]) }, true)
  else (w, true)

/-- Certifier-identities block of `GenerateCryptoMaterial`
(fabric.go lines 191-196), identical in shape to the auditor block. -/
def certifierStep (gen : CryptoMaterialGenerator) (tms : TMS) (node : Node)
    (w : Wallet) : Wallet × Bool :=
  if node.Certifier then
    match gen.GenerateCertifierIdentities tms node [node.Name] with
    | [] => (w, false)
    | c :: _ =>
      ({ w with Certifiers := markHeadDefault (w.Certifiers ++ [toIdentity c]) }, true)
  else (w, true)

/-- Sequencing of the role blocks: the next block runs only when the
previous one did not panic; after a panic the partial wallet is carried
through unchanged. -/
def stepSeq (s : Wallet → Wallet × Bool) (r : Wallet × Bool) : Wallet × Bool :=
  if r.2 then s r.1 else r

/-- `GenerateCryptoMaterial` (fabric.go lines 148-197), restricted to
the wallet it builds for one node.  The four role blocks run in source
order; a panic in one block (flag `false`) stops execution and leaves
the wallet in its partially-populated state, as the Go wallet pointer
stored in `entry.Wallets[node.Name]` would be.  Returns the wallet and
whether the method completed without panicking. -/
def GenerateCryptoMaterial (gen : CryptoMaterialGenerator) (tms : TMS)
    (node : Node) : Wallet × Bool :=
  stepSeq (certifierStep gen tms node)
    (stepSeq (auditorStep gen tms node)
      (stepSeq (ownersStep gen tms node)
        (issuersStep gen tms node
          { Certifiers := [], Issuers := [], Owners := [], Auditors := [] })))

/-- Deployable-contract descriptor stored on an Entry (`TCC` struct);
its chaincode is kept opaque. -/
structure TCC where
  Chaincode : String
deriving DecidableEq, Repr

/-- Registry entry: the TMS descriptor, the (initially absent) contract
descriptor, and the node-name → wallet map, modelled as an association
list (first binding wins on lookup; `walletsInsert` prepends, matching
Go's map overwrite). -/
structure Entry where
  TMS : TMS
  TCC : Option TCC
  Wallets : List (String × Wallet)
deriving DecidableEq, Repr

/-- Lookup in a string-keyed association list (Go map read). -/
def alookup {α : Type} : List (String × α) → String → Option α
  | [], _ => none
  | (k, v) :: rest, key => if k = key then some v else alookup rest key

/-- Go map write `m[k] = v`: the new binding shadows any older one. -/
def ainsert {α : Type} (m : List (String × α)) (k : String) (v : α) :
    List (String × α) := (k, v) :: m

/-- Update the value stored under `k`, if present (models mutating a Go
struct through the pointer stored in the map). -/
def aupdate {α : Type} : List (String × α) → String → (α → α) →
    List (String × α)
  | [], _, _ => []
  | (k0, v) :: rest, k, f =>
    if k0 = k then (k0, f v) :: aupdate rest k f
    else (k0, v) :: aupdate rest k f

/-- The composite registry key `tms.Network+tms.Channel+tms.Namespace`
used by `GetEntry` (fabric.go line 216): delimiter-free concatenation. -/
def entryKey (tms : TMS) : String := tms.Network ++ tms.Channel ++ tms.Namespace

/-- `GetEntry` (fabric.go lines 215-225): lazy create-or-fetch on the
handler's `Entries` map.  Returns the entry and the (possibly extended)
map; an existing entry is returned untouched, whatever the passed
descriptor says. -/
def GetEntry (Entries : List (String × Entry)) (tms : TMS) :
    Entry × List (String × Entry) :=
  match alookup Entries (entryKey tms) with
  | some e => (e, Entries)
  | none =>
    let e : Entry := { TMS := tms, TCC := none, Wallets := [] }
    (e, ainsert Entries (entryKey tms) e)

/-- Public parameters generator interface
(`generators.PublicParamsGenerator`): `Generate(tms, args...)`. -/
structure PublicParamsGenerator where
  Generate : TMS → List String → Except String String

/-- The `tokenPlatform` collaborator plus the node topology and the file
system, as consumed by `GenerateArtifacts`:
`GetPublicParamsGenerators` may return nil (`none`);
`Nodes` is the FSC topology's node list; `MkdirAll`/`WriteFile` model
`os.MkdirAll`/`ioutil.WriteFile` outcomes; `AddFPC`/`PrepareTCC` model
the two chaincode-preparation branches; `RootDir` is
`GetContext().RootDir()`. -/
structure TokenPlatform where
  GetCryptoMaterialGenerator : String → CryptoMaterialGenerator
  GetPublicParamsGenerators : String → Option PublicParamsGenerator
  PublicParametersDir : String
  PublicParametersFile : TMS → String
  RootDir : String
  Nodes : List Node
  MkdirAll : String → Except String Unit
  WriteFile : String → String → Except String Unit
  AddFPC : TMS → String
  PrepareTCC : TMS → String

/-- A file-system effect performed by `GenerateArtifacts`. -/
inductive FSEvent where
  | mkdir (path : String)
  | write (path : String) (content : String)
deriving DecidableEq, Repr

/-- Where a `GenerateArtifacts` run stopped: `ok` is completion, every
other constructor is a gomega `Expect` failure or a panic at the
corresponding step. -/
inductive Outcome where
  | ok
  | setupFailed
  | walletFailed
  | noPPGen
  | ppGenFailed
  | mkdirFailed
  | writeFailed
deriving DecidableEq, Repr

/-- Result of a `GenerateArtifacts` run: the entries map as left behind
(no rollback on failure), the file-system effects that actually
happened, and where the run stopped. -/
structure RunResult where
  Entries : List (String × Entry)
  events : List FSEvent
  outcome : Outcome
deriving Repr

/-- The per-node loop of `GenerateArtifacts` (fabric.go lines 91-94):
each node's wallet is stored under its name before the next node is
processed; a panic inside `GenerateCryptoMaterial` stops the loop with
the partial wallet already stored (the Go map holds the pointer). -/
def populateWallets (gen : CryptoMaterialGenerator) (tms : TMS) :
    List Node → List (String × Wallet) → List (String × Wallet) × Bool
  | [], m => (m, true)
  | node :: rest, m =>
    let r := GenerateCryptoMaterial gen tms node
    let m2 := ainsert m node.Name r.1
    if r.2 then populateWallets gen tms rest m2 else (m2, false)

/-- `GenerateArtifacts` (fabric.go lines 80-128): fetch/create the
entry, run crypto-material setup, build every node's wallet, check a
public-params generator exists for the driver, generate the parameters,
create the parameters directory and write the file, prepare the
chaincode (private or public branch) and finally set the entry's TCC.
Every failure aborts at that point, leaving map and effects as they
are. -/
def GenerateArtifacts (p : TokenPlatform) (Entries0 : List (String × Entry))
    (tms : TMS) : RunResult :=
  let entry := (GetEntry Entries0 tms).1
  let Entries1 := (GetEntry Entries0 tms).2
  let cmGenerator := p.GetCryptoMaterialGenerator tms.Driver
  match cmGenerator.Setup tms with
  | .error _ => ⟨Entries1, [], .setupFailed⟩
  | .ok root =>
    let pw := populateWallets cmGenerator tms p.Nodes entry.Wallets
    let Entries2 := aupdate Entries1 (entryKey tms) (fun e => { e with Wallets := pw.1 })
    if pw.2 then
      match p.GetPublicParamsGenerators tms.Driver with
      | none => ⟨Entries2, [], .noPPGen⟩
      | some ppGenerator =>
        match ppGenerator.Generate tms (root :: tms.PublicParamsGenArgs) with
        | .error _ => ⟨Entries2, [], .ppGenFailed⟩
        | .ok ppRaw =>
          match p.MkdirAll p.PublicParametersDir with
          | .error _ => ⟨Entries2, [], .mkdirFailed⟩
          | .ok _ =>
            match p.WriteFile (p.PublicParametersFile tms) ppRaw with
            | .error _ => ⟨Entries2, [FSEvent.mkdir p.PublicParametersDir], .writeFailed⟩
            | .ok _ =>
              let chaincode :=
                if tms.TokenChaincodePrivate then p.AddFPC tms else p.PrepareTCC tms
              ⟨aupdate Entries2 (entryKey tms)
                  (fun e => { e with TCC := some { Chaincode := chaincode } }),
               [FSEvent.mkdir p.PublicParametersDir,
                FSEvent.write (p.PublicParametersFile tms) ppRaw], .ok⟩
    else ⟨Entries2, [], .walletFailed⟩

/-- Join a list of path components with the separator. -/
def joinPath : List String → String
  | [] => ""
  | [x] => x
  | x :: y :: ys => x ++ "/" ++ joinPath (y :: ys)

/-- `filepath.Join` on an already-clean component list: empty
components are skipped, the rest joined with the separator, as Go does
for components that need no further cleaning. -/
def filepathJoin (elems : List String) : String :=
  joinPath (elems.filter (fun s => s ≠ ""))

/-- `FSCCertifierCryptoMaterialDir` (fabric.go lines 203-213). -/
def FSCCertifierCryptoMaterialDir (p : TokenPlatform) (tms : TMS)
    (peer : Node) : String :=
  filepathJoin [p.RootDir, "crypto", "fsc", peer.ID, "wallets", "certifier",
    tms.Network ++ "_" ++ tms.Channel ++ "_" ++ tms.Namespace ++ "_" ++ tms.Driver]

/-! ### Specification predicates and concrete instances -/

/-- The spec's invariant for a role sequence: exactly one record has
`Default = true`, and it is the last record of the sequence. -/
def uniqueLastDefault (l : List Identity) : Prop :=
  (l.filter (fun i => i.Default)).length = 1 ∧
  ∃ x, l.getLast? = some x ∧ x.Default = true

/-- A well-behaved concrete generator: one credential per requested
name, derived from the name.  Used to instantiate the theorems. -/
def gen0c : CryptoMaterialGenerator where
  Setup := fun _ => .ok "root-handle"
  GenerateIssuerIdentities := fun _ _ names => names.map (fun n => n ++ "-icred")
  GenerateOwnerIdentities := fun _ _ names => names.map (fun n => n ++ "-ocred")
  GenerateAuditorIdentities := fun _ _ names => names.map (fun n => n ++ "-acred")
  GenerateCertifierIdentities := fun _ _ names => names.map (fun n => n ++ "-ccred")

/-- The spec's §8 scenario TMS: {N1, C1, tokens, zkat}. -/
def tms0c : TMS :=
  { Network := "N1", Channel := "C1", Namespace := "tokens", Driver := "zkat",
    PublicParamsGenArgs := [], TokenChaincodePrivate := false }

/-- The spec's §8 scenario node: issuers=[alice], no owners,
auditor=true, certifier=false. -/
def node0c : Node :=
  { Name := "org1peer", ID := "org1peer", Issuers := ["alice"], Owners := [],
    Auditor := true, Certifier := false }

/-- The wallet the §8 scenario is expected to produce. -/
def w0c : Wallet :=
  { Certifiers := []
    Issuers := [{ ID := "alice-icred", Default := false },
                { ID := "org1peer-icred", Default := true }]
    Owners := []
    Auditors := [{ ID := "org1peer-acred", Default := true }] }

/-- A concrete platform whose generators and file system all succeed. -/
def pOkC : TokenPlatform where
  GetCryptoMaterialGenerator := fun _ => gen0c
  GetPublicParamsGenerators := fun _ =>
    some { Generate := fun _ args => .ok (String.intercalate "," args) }
  PublicParametersDir := "/tmp/pp"
  PublicParametersFile := fun tms => "/tmp/pp/" ++ entryKey tms
  RootDir := "/tmp/root"
  Nodes := [node0c]
  MkdirAll := fun _ => .ok ()
  WriteFile := fun _ _ => .ok ()
  AddFPC := fun _ => "fpc-cc"
  PrepareTCC := fun _ => "tcc-cc"

/-- The same platform with no public-params generator registered for
any driver. -/
def pNoGenC : TokenPlatform :=
  { pOkC with GetPublicParamsGenerators := fun _ => none }

/-- First TMS of the key-collision pair: triple ("a","bc","x"). -/
def tmsColl1 : TMS :=
  { Network := "a", Channel := "bc", Namespace := "x", Driver := "d1",
    PublicParamsGenArgs := [], TokenChaincodePrivate := false }

/-- Second TMS of the key-collision pair: triple ("ab","c","x"),
distinct from the first, same concatenation "abcx". -/
def tmsColl2 : TMS :=
  { Network := "ab", Channel := "c", Namespace := "x", Driver := "d2",
    PublicParamsGenArgs := [], TokenChaincodePrivate := false }

/-- A TMS equal to `tms0c` except for the driver field. -/
def tms0cDrv : TMS := { tms0c with Driver := "fabtoken" }

/-- A degenerate generator that returns no credential for any role. -/
def genFc : CryptoMaterialGenerator where
  Setup := fun _ => .ok "r"
  GenerateIssuerIdentities := fun _ _ _ => []
  GenerateOwnerIdentities := fun _ _ _ => []
  GenerateAuditorIdentities := fun _ _ _ => []
  GenerateCertifierIdentities := fun _ _ _ => []

/-- A node with one configured issuer and nothing else. -/
def nodeFc : Node :=
  { Name := "n", ID := "n", Issuers := ["a"], Owners := [],
    Auditor := false, Certifier := false }

/-! ### Helper lemmas: marking defaults -/

theorem markLastDefault_length (l : List Identity) :
    (markLastDefault l).length = l.length := by
  induction l with
  | nil => rfl
  | cons x xs ih =>
    cases xs with
    | nil => rfl
    | cons y ys => simpa [markLastDefault] using ih

theorem markLastDefault_cons (x : Identity) (xs : List Identity) :
    ∃ z zs, markLastDefault (x :: xs) = z :: zs := by
  cases xs with
  | nil => exact ⟨_, _, rfl⟩
  | cons y ys => exact ⟨_, _, rfl⟩

theorem markLastDefault_getLast (l : List Identity) (h : l ≠ []) :
    ∃ x, l.getLast? = some x ∧
      (markLastDefault l).getLast? = some { x with Default := true } := by
  induction l with
  | nil => exact absurd rfl h
  | cons x xs ih =>
    cases xs with
    | nil => exact ⟨x, rfl, rfl⟩
    | cons y ys =>
      obtain ⟨z, hz1, hz2⟩ := ih (by simp)
      refine ⟨z, ?_, ?_⟩
      · rw [List.getLast?_cons_cons]; exact hz1
      · obtain ⟨a, as, hm⟩ := markLastDefault_cons y ys
        show (x :: markLastDefault (y :: ys)).getLast? = _
        rw [hm, List.getLast?_cons_cons, ← hm]
        exact hz2

theorem markLastDefault_filter (l : List Identity)
    (h : ∀ x ∈ l, x.Default = false) (hne : l ≠ []) :
    ((markLastDefault l).filter (fun i => i.Default)).length = 1 := by
  induction l with
  | nil => exact absurd rfl hne
  | cons x xs ih =>
    cases xs with
    | nil => simp [markLastDefault]
    | cons y ys =>
      have hx : x.Default = false := h x (by simp)
      have hrest := ih (fun z hz => h z (by simp [hz])) (by simp)
      show (((x :: markLastDefault (y :: ys)).filter (fun i => i.Default))).length = 1
      rw [List.filter_cons]
      simp only [hx, Bool.false_eq_true, if_false]
      exact hrest

theorem markLastDefault_unique (l : List Identity)
    (h : ∀ x ∈ l, x.Default = false) (hne : l ≠ []) :
    uniqueLastDefault (markLastDefault l) := by
  obtain ⟨x, _, hx2⟩ := markLastDefault_getLast l hne
  exact ⟨markLastDefault_filter l h hne, _, hx2, rfl⟩

theorem mem_map_toIdentity_default (ids : List String) :
    ∀ x ∈ ids.map toIdentity, x.Default = false := by
  intro x hx
  obtain ⟨c, _, rfl⟩ := List.mem_map.mp hx
  rfl

/-! ### Helper lemmas: the role steps of GenerateCryptoMaterial -/

theorem stepSeq_eq_ok {s : Wallet → Wallet × Bool} {r : Wallet × Bool}
    {w : Wallet} (h : stepSeq s r = (w, true)) :
    ∃ w0, r = (w0, true) ∧ s w0 = (w, true) := by
  rcases r with ⟨w0, b⟩
  cases b with
  | false => simp [stepSeq] at h
  | true => exact ⟨w0, rfl, by simpa [stepSeq] using h⟩

theorem stepSeq_of_ok {s : Wallet → Wallet × Bool} {r : Wallet × Bool}
    (h : r.2 = true) : stepSeq s r = s r.1 := by
  unfold stepSeq
  rw [if_pos h]

theorem issuersStep_preserves (gen : CryptoMaterialGenerator) (tms : TMS)
    (node : Node) (w : Wallet) :
    ((issuersStep gen tms node w).1).Certifiers = w.Certifiers ∧
    ((issuersStep gen tms node w).1).Owners = w.Owners ∧
    ((issuersStep gen tms node w).1).Auditors = w.Auditors := by
  unfold issuersStep
  split
  · exact ⟨rfl, rfl, rfl⟩
  · dsimp only
    split <;> exact ⟨rfl, rfl, rfl⟩

theorem ownersStep_preserves (gen : CryptoMaterialGenerator) (tms : TMS)
    (node : Node) (w : Wallet) :
    ((ownersStep gen tms node w).1).Certifiers = w.Certifiers ∧
    ((ownersStep gen tms node w).1).Issuers = w.Issuers ∧
    ((ownersStep gen tms node w).1).Auditors = w.Auditors := by
  unfold ownersStep
  split
  · exact ⟨rfl, rfl, rfl⟩
  · dsimp only
    split <;> exact ⟨rfl, rfl, rfl⟩

theorem auditorStep_preserves (gen : CryptoMaterialGenerator) (tms : TMS)
    (node : Node) (w : Wallet) :
    ((auditorStep gen tms node w).1).Certifiers = w.Certifiers ∧
    ((auditorStep gen tms node w).1).Issuers = w.Issuers ∧
    ((auditorStep gen tms node w).1).Owners = w.Owners := by
  unfold auditorStep
  split
  · split <;> exact ⟨rfl, rfl, rfl⟩
  · exact ⟨rfl, rfl, rfl⟩

theorem certifierStep_preserves (gen : CryptoMaterialGenerator) (tms : TMS)
    (node : Node) (w : Wallet) :
    ((certifierStep gen tms node w).1).Issuers = w.Issuers ∧
    ((certifierStep gen tms node w).1).Owners = w.Owners ∧
    ((certifierStep gen tms node w).1).Auditors = w.Auditors := by
  unfold certifierStep
  split
  · split <;> exact ⟨rfl, rfl, rfl⟩
  · exact ⟨rfl, rfl, rfl⟩

theorem issuersStep_empty (gen : CryptoMaterialGenerator) (tms : TMS)
    (node : Node) (w : Wallet) (h : node.Issuers = []) :
    issuersStep gen tms node w = (w, true) := by
  unfold issuersStep
  rw [if_pos (by simp [h])]

theorem ownersStep_empty (gen : CryptoMaterialGenerator) (tms : TMS)
    (node : Node) (w : Wallet) (h : node.Owners = []) :
    ownersStep gen tms node w = (w, true) := by
  unfold ownersStep
  rw [if_pos (by simp [h])]

theorem auditorStep_off (gen : CryptoMaterialGenerator) (tms : TMS)
    (node : Node) (w : Wallet) (h : node.Auditor = false) :
    auditorStep gen tms node w = (w, true) := by
  unfold auditorStep
  rw [if_neg (by simp [h])]

theorem certifierStep_off (gen : CryptoMaterialGenerator) (tms : TMS)
    (node : Node) (w : Wallet) (h : node.Certifier = false) :
    certifierStep gen tms node w = (w, true) := by
  unfold certifierStep
  rw [if_neg (by simp [h])]

theorem issuersStep_ok_shape (gen : CryptoMaterialGenerator) (tms : TMS)
    (node : Node) (w w' : Wallet) (hne : node.Issuers ≠ [])
    (h : issuersStep gen tms node w = (w', true)) :
    w' = { w with Issuers := markLastDefault (w.Issuers ++
      (gen.GenerateIssuerIdentities tms node (node.Issuers ++ [node.ID])).map toIdentity) } := by
  unfold issuersStep at h
  rw [if_neg (by simpa using hne)] at h
  dsimp only at h
  split at h
  · simp at h
  · injection h with h1 _
    exact h1.symm

theorem ownersStep_ok_shape (gen : CryptoMaterialGenerator) (tms : TMS)
    (node : Node) (w w' : Wallet) (hne : node.Owners ≠ [])
    (h : ownersStep gen tms node w = (w', true)) :
    w' = { w with Owners := markLastDefault (w.Owners ++
      (gen.GenerateOwnerIdentities tms node (node.Owners ++ [node.ID])).map toIdentity) } := by
  unfold ownersStep at h
  rw [if_neg (by simpa using hne)] at h
  dsimp only at h
  split at h
  · simp at h
  · injection h with h1 _
    exact h1.symm

theorem auditorStep_ok_shape (gen : CryptoMaterialGenerator) (tms : TMS)
    (node : Node) (w w' : Wallet) (ha : node.Auditor = true)
    (h : auditorStep gen tms node w = (w', true)) :
    ∃ c rest, gen.GenerateAuditorIdentities tms node [node.Name] = c :: rest ∧
      w' = { w with Auditors := markHeadDefault (w.Auditors ++ [toIdentity c]) } := by
  unfold auditorStep at h
  rw [if_pos ha] at h
  rcases hgen : gen.GenerateAuditorIdentities tms node [node.Name] with _ | ⟨c, rest⟩
  · rw [hgen] at h
    simp at h
  · rw [hgen] at h
    refine ⟨c, rest, rfl, ?_⟩
    injection h with h1 _
    exact h1.symm

theorem certifierStep_ok_shape (gen : CryptoMaterialGenerator) (tms : TMS)
    (node : Node) (w w' : Wallet) (hc : node.Certifier = true)
    (h : certifierStep gen tms node w = (w', true)) :
    ∃ c rest, gen.GenerateCertifierIdentities tms node [node.Name] = c :: rest ∧
      w' = { w with Certifiers := markHeadDefault (w.Certifiers ++ [toIdentity c]) } := by
  unfold certifierStep at h
  rw [if_pos hc] at h
  rcases hgen : gen.GenerateCertifierIdentities tms node [node.Name] with _ | ⟨c, rest⟩
  · rw [hgen] at h
    simp at h
  · rw [hgen] at h
    refine ⟨c, rest, rfl, ?_⟩
    injection h with h1 _
    exact h1.symm

theorem uniqueLastDefault_singleton (x : Identity) (hx : x.Default = true) :
    uniqueLastDefault [x] := by
  refine ⟨?_, x, rfl, hx⟩
  simp [List.filter, hx]

/-! ### Claim theorems -/

/-- C1: for every wallet produced by a completed run of
`GenerateCryptoMaterial` and every role whose identity sequence is
non-empty, exactly one record in that sequence has `Default = true`,
and it is the last record appended for that role. -/
theorem generateCryptoMaterial_unique_last_default
    (gen : CryptoMaterialGenerator) (tms : TMS) (node : Node) (w : Wallet)
    (h : GenerateCryptoMaterial gen tms node = (w, true)) :
    (w.Issuers ≠ [] → uniqueLastDefault w.Issuers) ∧
    (w.Owners ≠ [] → uniqueLastDefault w.Owners) ∧
    (w.Auditors ≠ [] → uniqueLastDefault w.Auditors) ∧
    (w.Certifiers ≠ [] → uniqueLastDefault w.Certifiers) := by
  unfold GenerateCryptoMaterial at h
  obtain ⟨w3, h3, hcert⟩ := stepSeq_eq_ok h
  obtain ⟨w2, h2, haud⟩ := stepSeq_eq_ok h3
  obtain ⟨w1, h1, hown⟩ := stepSeq_eq_ok h2
  clear h h3 h2
  -- field bookkeeping through the step chain
  have hI3 : w.Issuers = w3.Issuers := by
    have t := (certifierStep_preserves gen tms node w3).1
    rw [hcert] at t
    exact t
  have hI2 : w3.Issuers = w2.Issuers := by
    have t := (auditorStep_preserves gen tms node w2).2.1
    rw [haud] at t
    exact t
  have hI1 : w2.Issuers = w1.Issuers := by
    have t := (ownersStep_preserves gen tms node w1).2.1
    rw [hown] at t
    exact t
  have hO3 : w.Owners = w3.Owners := by
    have t := (certifierStep_preserves gen tms node w3).2.1
    rw [hcert] at t
    exact t
  have hO2 : w3.Owners = w2.Owners := by
    have t := (auditorStep_preserves gen tms node w2).2.2
    rw [haud] at t
    exact t
  have hA3 : w.Auditors = w3.Auditors := by
    have t := (certifierStep_preserves gen tms node w3).2.2
    rw [hcert] at t
    exact t
  have hA1 : w2.Auditors = w1.Auditors := by
    have t := (ownersStep_preserves gen tms node w1).2.2
    rw [hown] at t
    exact t
  have hA0 : w1.Auditors = [] := by
    have t := (issuersStep_preserves gen tms node
      { Certifiers := [], Issuers := [], Owners := [], Auditors := [] }).2.2
    rw [h1] at t
    exact t
  have hC2 : w3.Certifiers = w2.Certifiers := by
    have t := (auditorStep_preserves gen tms node w2).1
    rw [haud] at t
    exact t
  have hC1 : w2.Certifiers = w1.Certifiers := by
    have t := (ownersStep_preserves gen tms node w1).1
    rw [hown] at t
    exact t
  have hC0 : w1.Certifiers = [] := by
    have t := (issuersStep_preserves gen tms node
      { Certifiers := [], Issuers := [], Owners := [], Auditors := [] }).1
    rw [h1] at t
    exact t
  have hO1 : w1.Owners = [] := by
    have t := (issuersStep_preserves gen tms node
      { Certifiers := [], Issuers := [], Owners := [], Auditors := [] }).2.1
    rw [h1] at t
    exact t
  refine ⟨?_, ?_, ?_, ?_⟩
  · -- Issuers
    intro hne
    rw [hI3, hI2, hI1] at hne ⊢
    by_cases hcfg : node.Issuers = []
    · rw [issuersStep_empty gen tms node _ hcfg] at h1
      injection h1 with h1a _
      rw [← h1a] at hne
      exact absurd rfl hne
    · have hs := issuersStep_ok_shape gen tms node _ w1 hcfg h1
      subst hs
      dsimp only at hne ⊢
      refine markLastDefault_unique _ ?_ ?_
      · intro x hx
        exact mem_map_toIdentity_default _ x (by simpa using hx)
      · intro hnil
        rw [hnil] at hne
        exact hne rfl
  · -- Owners
    intro hne
    rw [hO3, hO2] at hne ⊢
    by_cases hcfg : node.Owners = []
    · rw [ownersStep_empty gen tms node _ hcfg] at hown
      injection hown with h1a _
      rw [← h1a, hO1] at hne
      exact absurd rfl hne
    · have hs := ownersStep_ok_shape gen tms node _ w2 hcfg hown
      subst hs
      dsimp only at hne ⊢
      rw [hO1] at hne ⊢
      refine markLastDefault_unique _ ?_ ?_
      · intro x hx
        exact mem_map_toIdentity_default _ x (by simpa using hx)
      · intro hnil
        rw [hnil] at hne
        exact hne rfl
  · -- Auditors
    intro hne
    rw [hA3] at hne ⊢
    by_cases hcfg : node.Auditor = true
    · obtain ⟨c, rest, _, hs⟩ := auditorStep_ok_shape gen tms node w2 w3 hcfg haud
      subst hs
      dsimp only at hne ⊢
      rw [hA1, hA0]
      exact uniqueLastDefault_singleton _ rfl
    · rw [auditorStep_off gen tms node _ (by simpa using hcfg)] at haud
      injection haud with h1a _
      rw [← h1a, hA1, hA0] at hne
      exact absurd rfl hne
  · -- Certifiers
    intro hne
    by_cases hcfg : node.Certifier = true
    · obtain ⟨c, rest, _, hs⟩ := certifierStep_ok_shape gen tms node w3 w hcfg hcert
      subst hs
      dsimp only at hne ⊢
      rw [hC2, hC1, hC0]
      exact uniqueLastDefault_singleton _ rfl
    · rw [certifierStep_off gen tms node _ (by simpa using hcfg)] at hcert
      injection hcert with h1a _
      rw [← h1a, hC2, hC1, hC0] at hne
      exact absurd rfl hne

/-- C1 witness: the claim instantiated at the spec §8 scenario. -/
theorem generateCryptoMaterial_unique_last_default_witness :
    (w0c.Issuers ≠ [] → uniqueLastDefault w0c.Issuers) ∧
    (w0c.Owners ≠ [] → uniqueLastDefault w0c.Owners) ∧
    (w0c.Auditors ≠ [] → uniqueLastDefault w0c.Auditors) ∧
    (w0c.Certifiers ≠ [] → uniqueLastDefault w0c.Certifiers) :=
  generateCryptoMaterial_unique_last_default gen0c tms0c node0c w0c (by decide)

/-- C2: for a node with N ≥ 1 configured names for a multi-cardinality
role (Issuer or Owner), `GenerateCryptoMaterial` appends the node's own
id after the configured names and invokes the generator once for the
combined set; when the generator honours its contract (one credential
per requested name) the resulting role sequence has length N+1 and its
last record — the one generated for the node's own id — has
`Default = true`. -/
theorem generateCryptoMaterial_multi_role
    (gen : CryptoMaterialGenerator) (tms : TMS) (node : Node) (w : Wallet)
    (h : GenerateCryptoMaterial gen tms node = (w, true)) :
    (node.Issuers ≠ [] →
      (gen.GenerateIssuerIdentities tms node (node.Issuers ++ [node.ID])).length
        = node.Issuers.length + 1 →
      w.Issuers.length = node.Issuers.length + 1 ∧
      w.Issuers = markLastDefault
        ((gen.GenerateIssuerIdentities tms node (node.Issuers ++ [node.ID])).map toIdentity) ∧
      (∀ c, (gen.GenerateIssuerIdentities tms node
          (node.Issuers ++ [node.ID])).getLast? = some c →
        w.Issuers.getLast? = some { ID := c, Default := true })) ∧
    (node.Owners ≠ [] →
      (gen.GenerateOwnerIdentities tms node (node.Owners ++ [node.ID])).length
        = node.Owners.length + 1 →
      w.Owners.length = node.Owners.length + 1 ∧
      w.Owners = markLastDefault
        ((gen.GenerateOwnerIdentities tms node (node.Owners ++ [node.ID])).map toIdentity) ∧
      (∀ c, (gen.GenerateOwnerIdentities tms node
          (node.Owners ++ [node.ID])).getLast? = some c →
        w.Owners.getLast? = some { ID := c, Default := true })) := by
  unfold GenerateCryptoMaterial at h
  obtain ⟨w3, h3, hcert⟩ := stepSeq_eq_ok h
  obtain ⟨w2, h2, haud⟩ := stepSeq_eq_ok h3
  obtain ⟨w1, h1, hown⟩ := stepSeq_eq_ok h2
  clear h h3 h2
  have hI3 : w.Issuers = w3.Issuers := by
    have t := (certifierStep_preserves gen tms node w3).1
    rw [hcert] at t
    exact t
  have hI2 : w3.Issuers = w2.Issuers := by
    have t := (auditorStep_preserves gen tms node w2).2.1
    rw [haud] at t
    exact t
  have hI1 : w2.Issuers = w1.Issuers := by
    have t := (ownersStep_preserves gen tms node w1).2.1
    rw [hown] at t
    exact t
  have hO3 : w.Owners = w3.Owners := by
    have t := (certifierStep_preserves gen tms node w3).2.1
    rw [hcert] at t
    exact t
  have hO2 : w3.Owners = w2.Owners := by
    have t := (auditorStep_preserves gen tms node w2).2.2
    rw [haud] at t
    exact t
  have hO1 : w1.Owners = [] := by
    have t := (issuersStep_preserves gen tms node
      { Certifiers := [], Issuers := [], Owners := [], Auditors := [] }).2.1
    rw [h1] at t
    exact t
  constructor
  · intro hne hlen
    have hs := issuersStep_ok_shape gen tms node _ w1 hne h1
    have hwI : w.Issuers = markLastDefault
        ((gen.GenerateIssuerIdentities tms node (node.Issuers ++ [node.ID])).map toIdentity) := by
      rw [hI3, hI2, hI1, hs]
      rfl
    have hmlen : ((gen.GenerateIssuerIdentities tms node
        (node.Issuers ++ [node.ID])).map toIdentity).length = node.Issuers.length + 1 := by
      rw [List.length_map]
      exact hlen
    have hmne : (gen.GenerateIssuerIdentities tms node
        (node.Issuers ++ [node.ID])).map toIdentity ≠ [] := by
      intro hnil
      rw [hnil] at hmlen
      simp at hmlen
    refine ⟨?_, hwI, ?_⟩
    · rw [hwI, markLastDefault_length, hmlen]
    · intro c hc
      obtain ⟨x, hx1, hx2⟩ := markLastDefault_getLast _ hmne
      rw [List.getLast?_map, hc] at hx1
      have hx : x = toIdentity c := by
        injection hx1 with hx
        exact hx.symm
      rw [hwI, hx2, hx]
      rfl
  · intro hne hlen
    have hs := ownersStep_ok_shape gen tms node _ w2 hne hown
    have hwO : w.Owners = markLastDefault
        ((gen.GenerateOwnerIdentities tms node (node.Owners ++ [node.ID])).map toIdentity) := by
      rw [hO3, hO2, hs]
      dsimp only
      rw [hO1]
      rfl
    have hmlen : ((gen.GenerateOwnerIdentities tms node
        (node.Owners ++ [node.ID])).map toIdentity).length = node.Owners.length + 1 := by
      rw [List.length_map]
      exact hlen
    have hmne : (gen.GenerateOwnerIdentities tms node
        (node.Owners ++ [node.ID])).map toIdentity ≠ [] := by
      intro hnil
      rw [hnil] at hmlen
      simp at hmlen
    refine ⟨?_, hwO, ?_⟩
    · rw [hwO, markLastDefault_length, hmlen]
    · intro c hc
      obtain ⟨x, hx1, hx2⟩ := markLastDefault_getLast _ hmne
      rw [List.getLast?_map, hc] at hx1
      have hx : x = toIdentity c := by
        injection hx1 with hx
        exact hx.symm
      rw [hwO, hx2, hx]
      rfl

/-- C2 witness: the Issuer half of the claim instantiated at the
spec §8 scenario (N = 1 configured issuer). -/
theorem generateCryptoMaterial_multi_role_witness :
    w0c.Issuers.length = node0c.Issuers.length + 1 ∧
    w0c.Issuers = markLastDefault
      ((gen0c.GenerateIssuerIdentities tms0c node0c
        (node0c.Issuers ++ [node0c.ID])).map toIdentity) ∧
    (∀ c, (gen0c.GenerateIssuerIdentities tms0c node0c
        (node0c.Issuers ++ [node0c.ID])).getLast? = some c →
      w0c.Issuers.getLast? = some { ID := c, Default := true }) :=
  (generateCryptoMaterial_multi_role gen0c tms0c node0c w0c (by decide)).1
    (by decide) (by decide)

/-- C7: for a node with a single-cardinality role (Auditor or
Certifier) enabled, a completed `GenerateCryptoMaterial` run invoked
the generator with the node's name, took exactly the first returned
credential, and the role sequence is exactly that one record with
`Default = true`. -/
theorem generateCryptoMaterial_single_role
    (gen : CryptoMaterialGenerator) (tms : TMS) (node : Node) (w : Wallet)
    (h : GenerateCryptoMaterial gen tms node = (w, true)) :
    (node.Auditor = true → ∃ c rest,
      gen.GenerateAuditorIdentities tms node [node.Name] = c :: rest ∧
      w.Auditors = [{ ID := c, Default := true }]) ∧
    (node.Certifier = true → ∃ c rest,
      gen.GenerateCertifierIdentities tms node [node.Name] = c :: rest ∧
      w.Certifiers = [{ ID := c, Default := true }]) := by
  unfold GenerateCryptoMaterial at h
  obtain ⟨w3, h3, hcert⟩ := stepSeq_eq_ok h
  obtain ⟨w2, h2, haud⟩ := stepSeq_eq_ok h3
  obtain ⟨w1, h1, hown⟩ := stepSeq_eq_ok h2
  clear h h3 h2
  have hA3 : w.Auditors = w3.Auditors := by
    have t := (certifierStep_preserves gen tms node w3).2.2
    rw [hcert] at t
    exact t
  have hA1 : w2.Auditors = w1.Auditors := by
    have t := (ownersStep_preserves gen tms node w1).2.2
    rw [hown] at t
    exact t
  have hA0 : w1.Auditors = [] := by
    have t := (issuersStep_preserves gen tms node
      { Certifiers := [], Issuers := [], Owners := [], Auditors := [] }).2.2
    rw [h1] at t
    exact t
  have hC2 : w3.Certifiers = w2.Certifiers := by
    have t := (auditorStep_preserves gen tms node w2).1
    rw [haud] at t
    exact t
  have hC1 : w2.Certifiers = w1.Certifiers := by
    have t := (ownersStep_preserves gen tms node w1).1
    rw [hown] at t
    exact t
  have hC0 : w1.Certifiers = [] := by
    have t := (issuersStep_preserves gen tms node
      { Certifiers := [], Issuers := [], Owners := [], Auditors := [] }).1
    rw [h1] at t
    exact t
  constructor
  · intro ha
    obtain ⟨c, rest, hg, hs⟩ := auditorStep_ok_shape gen tms node w2 w3 ha haud
    refine ⟨c, rest, hg, ?_⟩
    rw [hA3, hs]
    dsimp only
    rw [hA1, hA0]
    rfl
  · intro hc
    obtain ⟨c, rest, hg, hs⟩ := certifierStep_ok_shape gen tms node w3 w hc hcert
    refine ⟨c, rest, hg, ?_⟩
    rw [hs]
    dsimp only
    rw [hC2, hC1, hC0]
    rfl

/-- C7 witness: the Auditor half of the claim instantiated at the
spec §8 scenario. -/
theorem generateCryptoMaterial_single_role_witness :
    ∃ c rest, gen0c.GenerateAuditorIdentities tms0c node0c [node0c.Name] = c :: rest ∧
      w0c.Auditors = [{ ID := c, Default := true }] :=
  (generateCryptoMaterial_single_role gen0c tms0c node0c w0c (by decide)).1 rfl

theorem stepSeq_preserve (P : Wallet → Prop) (s : Wallet → Wallet × Bool)
    (r : Wallet × Bool) (hs : ∀ u, P u → P (s u).1) (hr : P r.1) :
    P (stepSeq s r).1 := by
  unfold stepSeq
  split
  · exact hs _ hr
  · exact hr

theorem stepSeq_ok_of (s : Wallet → Wallet × Bool) (r : Wallet × Bool)
    (hr : r.2 = true) (hs : ∀ u, (s u).2 = true) : (stepSeq s r).2 = true := by
  unfold stepSeq
  rw [if_pos hr]
  exact hs r.1

theorem stepSeq_congr {s1 s2 : Wallet → Wallet × Bool}
    (h : ∀ u, s1 u = s2 u) (r : Wallet × Bool) :
    stepSeq s1 r = stepSeq s2 r := by
  unfold stepSeq
  split
  · exact h _
  · rfl

theorem issuersStep_ok_of (gen : CryptoMaterialGenerator) (tms : TMS)
    (node : Node) (w : Wallet)
    (h : node.Issuers ≠ [] →
      gen.GenerateIssuerIdentities tms node (node.Issuers ++ [node.ID]) ≠ []) :
    (issuersStep gen tms node w).2 = true := by
  unfold issuersStep
  split
  · rfl
  · rename_i hc
    dsimp only
    rw [if_neg ?_]
    have hids := h (by simpa using hc)
    simp only [List.isEmpty_iff, List.append_eq_nil, List.map_eq_nil_iff]
    intro hcon
    exact hids hcon.2

theorem ownersStep_ok_of (gen : CryptoMaterialGenerator) (tms : TMS)
    (node : Node) (w : Wallet)
    (h : node.Owners ≠ [] →
      gen.GenerateOwnerIdentities tms node (node.Owners ++ [node.ID]) ≠ []) :
    (ownersStep gen tms node w).2 = true := by
  unfold ownersStep
  split
  · rfl
  · rename_i hc
    dsimp only
    rw [if_neg ?_]
    have hids := h (by simpa using hc)
    simp only [List.isEmpty_iff, List.append_eq_nil, List.map_eq_nil_iff]
    intro hcon
    exact hids hcon.2

theorem auditorStep_ok_of (gen : CryptoMaterialGenerator) (tms : TMS)
    (node : Node) (w : Wallet)
    (h : node.Auditor = true →
      gen.GenerateAuditorIdentities tms node [node.Name] ≠ []) :
    (auditorStep gen tms node w).2 = true := by
  unfold auditorStep
  split
  · rename_i hc
    split
    · rename_i hnil
      exact absurd hnil (h hc)
    · rfl
  · rfl

theorem certifierStep_ok_of (gen : CryptoMaterialGenerator) (tms : TMS)
    (node : Node) (w : Wallet)
    (h : node.Certifier = true →
      gen.GenerateCertifierIdentities tms node [node.Name] ≠ []) :
    (certifierStep gen tms node w).2 = true := by
  unfold certifierStep
  split
  · rename_i hc
    split
    · rename_i hnil
      exact absurd hnil (h hc)
    · rfl
  · rfl

/-- C8: a role with no configured membership (empty issuer/owner name
set, or auditor/certifier flag false) yields an empty identity
sequence, without invoking that role's generator (the run is invariant
under replacing it) and without an error; with all four roles
unconfigured the method completes returning the empty wallet. -/
theorem generateCryptoMaterial_unconfigured_roles
    (gen : CryptoMaterialGenerator) (tms : TMS) (node : Node) :
    (node.Issuers = [] → ∀ f,
      GenerateCryptoMaterial { gen with GenerateIssuerIdentities := f } tms node
        = GenerateCryptoMaterial gen tms node ∧
      (GenerateCryptoMaterial gen tms node).1.Issuers = []) ∧
    (node.Owners = [] → ∀ f,
      GenerateCryptoMaterial { gen with GenerateOwnerIdentities := f } tms node
        = GenerateCryptoMaterial gen tms node ∧
      (GenerateCryptoMaterial gen tms node).1.Owners = []) ∧
    (node.Auditor = false → ∀ f,
      GenerateCryptoMaterial { gen with GenerateAuditorIdentities := f } tms node
        = GenerateCryptoMaterial gen tms node ∧
      (GenerateCryptoMaterial gen tms node).1.Auditors = []) ∧
    (node.Certifier = false → ∀ f,
      GenerateCryptoMaterial { gen with GenerateCertifierIdentities := f } tms node
        = GenerateCryptoMaterial gen tms node ∧
      (GenerateCryptoMaterial gen tms node).1.Certifiers = []) ∧
    (node.Issuers = [] → node.Owners = [] → node.Auditor = false →
      node.Certifier = false →
      GenerateCryptoMaterial gen tms node =
        ({ Certifiers := [], Issuers := [], Owners := [], Auditors := [] }, true)) := by
  refine ⟨?_, ?_, ?_, ?_, ?_⟩
  · intro hI f
    constructor
    · unfold GenerateCryptoMaterial
      have h1 : issuersStep { gen with GenerateIssuerIdentities := f } tms node
            { Certifiers := [], Issuers := [], Owners := [], Auditors := [] }
          = issuersStep gen tms node
            { Certifiers := [], Issuers := [], Owners := [], Auditors := [] } := by
        rw [issuersStep_empty _ tms node _ hI, issuersStep_empty gen tms node _ hI]
      exact congrArg (fun r => stepSeq (certifierStep gen tms node)
        (stepSeq (auditorStep gen tms node) (stepSeq (ownersStep gen tms node) r))) h1
    · unfold GenerateCryptoMaterial
      refine stepSeq_preserve (fun u => u.Issuers = []) _ _ ?_ ?_
      · intro u hu
        rw [(certifierStep_preserves gen tms node u).1]
        exact hu
      · refine stepSeq_preserve (fun u => u.Issuers = []) _ _ ?_ ?_
        · intro u hu
          rw [(auditorStep_preserves gen tms node u).2.1]
          exact hu
        · refine stepSeq_preserve (fun u => u.Issuers = []) _ _ ?_ ?_
          · intro u hu
            rw [(ownersStep_preserves gen tms node u).2.1]
            exact hu
          · rw [issuersStep_empty gen tms node _ hI]
  · intro hO f
    constructor
    · unfold GenerateCryptoMaterial
      have h1 : ∀ w, ownersStep { gen with GenerateOwnerIdentities := f } tms node w
          = ownersStep gen tms node w := by
        intro w
        rw [ownersStep_empty _ tms node _ hO, ownersStep_empty gen tms node _ hO]
      exact congrArg (fun r => stepSeq (certifierStep gen tms node)
        (stepSeq (auditorStep gen tms node) r)) (stepSeq_congr h1 _)
    · unfold GenerateCryptoMaterial
      refine stepSeq_preserve (fun u => u.Owners = []) _ _ ?_ ?_
      · intro u hu
        rw [(certifierStep_preserves gen tms node u).2.1]
        exact hu
      · refine stepSeq_preserve (fun u => u.Owners = []) _ _ ?_ ?_
        · intro u hu
          rw [(auditorStep_preserves gen tms node u).2.2]
          exact hu
        · refine stepSeq_preserve (fun u => u.Owners = []) _ _ ?_ ?_
          · intro u hu
            rw [ownersStep_empty gen tms node u hO]
            exact hu
          · exact (issuersStep_preserves gen tms node
              { Certifiers := [], Issuers := [], Owners := [], Auditors := [] }).2.1
  · intro hA f
    constructor
    · unfold GenerateCryptoMaterial
      have h1 : ∀ w, auditorStep { gen with GenerateAuditorIdentities := f } tms node w
          = auditorStep gen tms node w := by
        intro w
        rw [auditorStep_off _ tms node _ hA, auditorStep_off gen tms node _ hA]
      exact congrArg (fun r => stepSeq (certifierStep gen tms node) r)
        (stepSeq_congr h1 _)
    · unfold GenerateCryptoMaterial
      refine stepSeq_preserve (fun u => u.Auditors = []) _ _ ?_ ?_
      · intro u hu
        rw [(certifierStep_preserves gen tms node u).2.2]
        exact hu
      · refine stepSeq_preserve (fun u => u.Auditors = []) _ _ ?_ ?_
        · intro u hu
          rw [auditorStep_off gen tms node u hA]
          exact hu
        · refine stepSeq_preserve (fun u => u.Auditors = []) _ _ ?_ ?_
          · intro u hu
            rw [(ownersStep_preserves gen tms node u).2.2]
            exact hu
          · exact (issuersStep_preserves gen tms node
              { Certifiers := [], Issuers := [], Owners := [], Auditors := [] }).2.2
  · intro hC f
    constructor
    · unfold GenerateCryptoMaterial
      have h1 : ∀ w, certifierStep { gen with GenerateCertifierIdentities := f } tms node w
          = certifierStep gen tms node w := by
        intro w
        rw [certifierStep_off _ tms node _ hC, certifierStep_off gen tms node _ hC]
      exact stepSeq_congr h1 _
    · unfold GenerateCryptoMaterial
      refine stepSeq_preserve (fun u => u.Certifiers = []) _ _ ?_ ?_
      · intro u hu
        rw [certifierStep_off gen tms node u hC]
        exact hu
      · refine stepSeq_preserve (fun u => u.Certifiers = []) _ _ ?_ ?_
        · intro u hu
          rw [(auditorStep_preserves gen tms node u).1]
          exact hu
        · refine stepSeq_preserve (fun u => u.Certifiers = []) _ _ ?_ ?_
          · intro u hu
            rw [(ownersStep_preserves gen tms node u).1]
            exact hu
          · exact (issuersStep_preserves gen tms node
              { Certifiers := [], Issuers := [], Owners := [], Auditors := [] }).1
  · intro hI hO hA hC
    unfold GenerateCryptoMaterial
    rw [issuersStep_empty gen tms node _ hI]
    rw [stepSeq_of_ok (s := ownersStep gen tms node) rfl]
    rw [ownersStep_empty gen tms node _ hO]
    rw [stepSeq_of_ok (s := auditorStep gen tms node) rfl]
    rw [auditorStep_off gen tms node _ hA]
    rw [stepSeq_of_ok (s := certifierStep gen tms node) rfl]
    rw [certifierStep_off gen tms node _ hC]

/-- C8 witness: the Owners role of the spec §8 scenario node is
unconfigured; its sequence is empty and the run is invariant under
replacing the owner generator. -/
theorem generateCryptoMaterial_unconfigured_roles_witness :
    GenerateCryptoMaterial
        { gen0c with GenerateOwnerIdentities := fun _ _ _ => ["zz"] } tms0c node0c
      = GenerateCryptoMaterial gen0c tms0c node0c ∧
    (GenerateCryptoMaterial gen0c tms0c node0c).1.Owners = [] :=
  (generateCryptoMaterial_unconfigured_roles gen0c tms0c node0c).2.1 rfl
    (fun _ _ _ => ["zz"])

/-- C10: `GenerateCryptoMaterial` completes exactly under the
precondition that the generator returns at least one credential for
every enabled role; a generator returning an empty list for an enabled
role makes the run fail (the modelled index-out-of-range panic) rather
than return an error value. -/
theorem generateCryptoMaterial_totality
    (gen : CryptoMaterialGenerator) (tms : TMS) (node : Node)
    (hI : node.Issuers ≠ [] →
      gen.GenerateIssuerIdentities tms node (node.Issuers ++ [node.ID]) ≠ [])
    (hO : node.Owners ≠ [] →
      gen.GenerateOwnerIdentities tms node (node.Owners ++ [node.ID]) ≠ [])
    (hA : node.Auditor = true →
      gen.GenerateAuditorIdentities tms node [node.Name] ≠ [])
    (hC : node.Certifier = true →
      gen.GenerateCertifierIdentities tms node [node.Name] ≠ []) :
    (GenerateCryptoMaterial gen tms node).2 = true ∧
    (∃ gen' tms' node', node'.Issuers ≠ [] ∧
      gen'.GenerateIssuerIdentities tms' node' (node'.Issuers ++ [node'.ID]) = [] ∧
      (GenerateCryptoMaterial gen' tms' node').2 = false) := by
  constructor
  · unfold GenerateCryptoMaterial
    refine stepSeq_ok_of _ _ ?_ (fun u => certifierStep_ok_of gen tms node u hC)
    refine stepSeq_ok_of _ _ ?_ (fun u => auditorStep_ok_of gen tms node u hA)
    refine stepSeq_ok_of _ _ ?_ (fun u => ownersStep_ok_of gen tms node u hO)
    exact issuersStep_ok_of gen tms node _ hI
  · exact ⟨genFc, tms0c, nodeFc, by decide, rfl, by decide⟩

/-- C10 witness: the precondition holds at the §8 scenario inputs, so
the run completes (and the failing instance exists). -/
theorem generateCryptoMaterial_totality_witness :
    (GenerateCryptoMaterial gen0c tms0c node0c).2 = true ∧
    (∃ gen' tms' node', node'.Issuers ≠ [] ∧
      gen'.GenerateIssuerIdentities tms' node' (node'.Issuers ++ [node'.ID]) = [] ∧
      (GenerateCryptoMaterial gen' tms' node').2 = false) :=
  generateCryptoMaterial_totality gen0c tms0c node0c
    (fun _ => by decide) (fun _ => by decide) (fun _ => by decide) (fun _ => by decide)

/-! ### Helper lemmas: the entry registry -/

theorem alookup_ainsert {α : Type} (m : List (String × α)) (k : String)
    (v : α) : alookup (ainsert m k v) k = some v := by
  simp [ainsert, alookup]

theorem alookup_ainsert_isSome {α : Type} (m : List (String × α))
    (k k' : String) (v : α) (h : (alookup m k').isSome) :
    (alookup (ainsert m k v) k').isSome := by
  simp only [ainsert, alookup]
  split
  · rfl
  · exact h

theorem alookup_aupdate {α : Type} (m : List (String × α)) (k : String)
    (f : α → α) : alookup (aupdate m k f) k = (alookup m k).map f := by
  induction m with
  | nil => rfl
  | cons kv rest ih =>
    rcases kv with ⟨k0, v0⟩
    by_cases hk : k0 = k
    · simp [aupdate, alookup, hk]
    · simp [aupdate, alookup, hk, ih]

theorem GetEntry_of_found (s : List (String × Entry)) (tms : TMS)
    (e : Entry) (h : alookup s (entryKey tms) = some e) :
    GetEntry s tms = (e, s) := by
  unfold GetEntry
  rw [h]

theorem GetEntry_of_missing (s : List (String × Entry)) (tms : TMS)
    (h : alookup s (entryKey tms) = none) :
    GetEntry s tms = ({ TMS := tms, TCC := none, Wallets := [] },
      ainsert s (entryKey tms) { TMS := tms, TCC := none, Wallets := [] }) := by
  unfold GetEntry
  rw [h]

theorem GetEntry_lookup (s : List (String × Entry)) (tms : TMS) :
    alookup (GetEntry s tms).2 (entryKey tms) = some (GetEntry s tms).1 := by
  unfold GetEntry
  rcases h : alookup s (entryKey tms) with _ | e
  · simp only [entryKey] at h
    simp [entryKey, h, alookup_ainsert]
  · simp only [entryKey] at h
    simp [entryKey, h]

/-- C3: two `GetEntry` calls with descriptors sharing the same
(network, channel, namespace) triple return the same Entry, the second
call leaves the store untouched (the stored Entry is never
overwritten), and when the first call created the entry it carries the
first descriptor (first write wins).  Go's pointer identity is modelled
by the store holding a single binding under the shared key. -/
theorem getEntry_same_key (s : List (String × Entry)) (tms1 tms2 : TMS)
    (hkey : entryKey tms1 = entryKey tms2) :
    (GetEntry (GetEntry s tms1).2 tms2).1 = (GetEntry s tms1).1 ∧
    (GetEntry (GetEntry s tms1).2 tms2).2 = (GetEntry s tms1).2 ∧
    (alookup s (entryKey tms1) = none → ((GetEntry s tms1).1).TMS = tms1) := by
  have h1 : alookup (GetEntry s tms1).2 (entryKey tms2)
      = some (GetEntry s tms1).1 := by
    rw [← hkey]
    exact GetEntry_lookup s tms1
  have h2 : GetEntry (GetEntry s tms1).2 tms2
      = ((GetEntry s tms1).1, (GetEntry s tms1).2) :=
    GetEntry_of_found _ _ _ h1
  refine ⟨by rw [h2], by rw [h2], ?_⟩
  intro habs
  rw [GetEntry_of_missing s tms1 habs]

/-- C3 witness: same triple, different driver field, empty store. -/
theorem getEntry_same_key_witness :
    (GetEntry (GetEntry [] tms0c).2 tms0cDrv).1 = (GetEntry [] tms0c).1 ∧
    (GetEntry (GetEntry [] tms0c).2 tms0cDrv).2 = (GetEntry [] tms0c).2 ∧
    (alookup ([] : List (String × Entry)) (entryKey tms0c) = none →
      ((GetEntry [] tms0c).1).TMS = tms0c) :=
  getEntry_same_key [] tms0c tms0cDrv (by decide)

/-- C4: the registry key is the delimiter-free concatenation
network++channel++namespace, and it is not collision-free: the distinct
triples ("a","bc","x") and ("ab","c","x") produce the same key, so
`GetEntry` returns the first TMS's Entry for the second TMS. -/
theorem entryKey_collision :
    (tmsColl1.Network, tmsColl1.Channel, tmsColl1.Namespace)
      ≠ (tmsColl2.Network, tmsColl2.Channel, tmsColl2.Namespace) ∧
    entryKey tmsColl1 = tmsColl1.Network ++ tmsColl1.Channel ++ tmsColl1.Namespace ∧
    entryKey tmsColl1 = entryKey tmsColl2 ∧
    (GetEntry (GetEntry [] tmsColl1).2 tmsColl2).1 = (GetEntry [] tmsColl1).1 ∧
    ((GetEntry (GetEntry [] tmsColl1).2 tmsColl2).1).TMS = tmsColl1 := by
  refine ⟨by decide, rfl, by decide, by decide, by decide⟩

/-! ### Helper lemmas: path construction -/

theorem append_underscore_ne (a b : String) : a ++ "_" ++ b ≠ "" := by
  intro h
  have h2 := congrArg String.length h
  simp [String.length_append] at h2
  exact (by decide : ¬ ("_".length = 0)) h2.1.2

/-- C9: `FSCCertifierCryptoMaterialDir` returns the root directory
joined with crypto/fsc/<node id>/wallets/certifier/<network>_<channel>_
<namespace>_<driver>, the last component joining the four TMS fields
with underscores (stated for separator-free non-empty components, where
Go's `filepath.Join` is plain joining). -/
theorem FSCCertifierCryptoMaterialDir_spec (p : TokenPlatform) (tms : TMS)
    (peer : Node) (h1 : p.RootDir ≠ "") (h2 : peer.ID ≠ "") :
    FSCCertifierCryptoMaterialDir p tms peer =
      p.RootDir ++ "/" ++ "crypto" ++ "/" ++ "fsc" ++ "/" ++ peer.ID ++ "/" ++
      "wallets" ++ "/" ++ "certifier" ++ "/" ++
      (tms.Network ++ "_" ++ tms.Channel ++ "_" ++ tms.Namespace ++ "_" ++ tms.Driver) := by
  unfold FSCCertifierCryptoMaterialDir filepathJoin
  rw [List.filter_eq_self.mpr ?_]
  · simp only [joinPath, String.append_assoc]
  · intro a ha
    simp only [List.mem_cons, List.not_mem_nil, or_false] at ha
    rcases ha with rfl | rfl | rfl | rfl | rfl | rfl | rfl
    · exact decide_eq_true h1
    · decide
    · decide
    · exact decide_eq_true h2
    · decide
    · decide
    · exact decide_eq_true (append_underscore_ne _ _)

/-- C9 witness: the concrete platform, TMS and node give the expected
literal path. -/
theorem FSCCertifierCryptoMaterialDir_spec_witness :
    FSCCertifierCryptoMaterialDir pOkC tms0c node0c =
      "/tmp/root/crypto/fsc/org1peer/wallets/certifier/N1_C1_tokens_zkat" :=
  (FSCCertifierCryptoMaterialDir_spec pOkC tms0c node0c
    (by decide) (by decide)).trans (by decide)

/-! ### Helper lemmas: the artifact orchestrator -/

theorem alookup_aupdate_of_found {α : Type} (m : List (String × α))
    (k : String) (v : α) (f : α → α) (h : alookup m k = some v) :
    alookup (aupdate m k f) k = some (f v) := by
  rw [alookup_aupdate, h]
  rfl

theorem populateWallets_mem (gen : CryptoMaterialGenerator) (tms : TMS)
    (nodes : List Node) (m m' : List (String × Wallet))
    (h : populateWallets gen tms nodes m = (m', true)) :
    (∀ n ∈ nodes, (alookup m' n.Name).isSome) ∧
    (∀ k, (alookup m k).isSome → (alookup m' k).isSome) := by
  induction nodes generalizing m with
  | nil =>
    unfold populateWallets at h
    injection h with h1 _
    subst h1
    exact ⟨by simp, fun k hk => hk⟩
  | cons node rest ih =>
    unfold populateWallets at h
    dsimp only at h
    split at h
    · obtain ⟨hmem, hpres⟩ := ih _ h
      refine ⟨?_, ?_⟩
      · intro n hn
        rcases List.mem_cons.mp hn with rfl | hn'
        · refine hpres _ ?_
          rw [alookup_ainsert]
          rfl
        · exact hmem n hn'
      · intro k hk
        exact hpres k (alookup_ainsert_isSome _ _ _ _ hk)
    · simp at h

/-- C5: when no public-params generator is registered for the TMS's
driver, `GenerateArtifacts` aborts before any directory creation or
file write happens, so no partial public-parameters file is left. -/
theorem generateArtifacts_no_ppgen (p : TokenPlatform)
    (s : List (String × Entry)) (tms : TMS)
    (h : p.GetPublicParamsGenerators tms.Driver = none) :
    (GenerateArtifacts p s tms).events = [] ∧
    (GenerateArtifacts p s tms).outcome ≠ Outcome.ok := by
  unfold GenerateArtifacts
  dsimp only
  rcases hsetup : (p.GetCryptoMaterialGenerator tms.Driver).Setup tms with m | root
  · exact ⟨rfl, fun hc => nomatch hc⟩
  · dsimp only
    by_cases hpw : (populateWallets (p.GetCryptoMaterialGenerator tms.Driver) tms
        p.Nodes (GetEntry s tms).1.Wallets).2 = true
    · rw [if_pos hpw, h]
      exact ⟨rfl, fun hc => nomatch hc⟩
    · rw [if_neg hpw]
      exact ⟨rfl, fun hc => nomatch hc⟩

/-- C5 witness: the concrete platform with no registered generator. -/
theorem generateArtifacts_no_ppgen_witness :
    (GenerateArtifacts pNoGenC [] tms0c).events = [] ∧
    (GenerateArtifacts pNoGenC [] tms0c).outcome ≠ Outcome.ok :=
  generateArtifacts_no_ppgen pNoGenC [] tms0c rfl

/-- C6: `GenerateArtifacts` drives the Entry monotonically: any
file-system effect implies all node wallets are already stored
(wallets before parameters); the contract descriptor is set only on a
completed run, which also performed directory creation before the file
write; and a failure never rolls back — parameter-stage failures keep
the populated wallets, other failures keep the entry's previous
contract descriptor. -/
theorem generateArtifacts_state_machine (p : TokenPlatform)
    (s : List (String × Entry)) (tms : TMS) :
    ((GenerateArtifacts p s tms).events ≠ [] →
      ∃ e, alookup (GenerateArtifacts p s tms).Entries (entryKey tms) = some e ∧
        ∀ n ∈ p.Nodes, (alookup e.Wallets n.Name).isSome) ∧
    ((GenerateArtifacts p s tms).outcome ≠ Outcome.ok →
      ∃ e, alookup (GenerateArtifacts p s tms).Entries (entryKey tms) = some e ∧
        e.TCC = ((GetEntry s tms).1).TCC) ∧
    ((GenerateArtifacts p s tms).outcome = Outcome.ok →
      ∃ e, alookup (GenerateArtifacts p s tms).Entries (entryKey tms) = some e ∧
        e.TCC.isSome ∧
        (∀ n ∈ p.Nodes, (alookup e.Wallets n.Name).isSome) ∧
        ∃ c, (GenerateArtifacts p s tms).events =
          [FSEvent.mkdir p.PublicParametersDir,
           FSEvent.write (p.PublicParametersFile tms) c]) ∧
    (((GenerateArtifacts p s tms).outcome = Outcome.noPPGen ∨
      (GenerateArtifacts p s tms).outcome = Outcome.ppGenFailed ∨
      (GenerateArtifacts p s tms).outcome = Outcome.mkdirFailed ∨
      (GenerateArtifacts p s tms).outcome = Outcome.writeFailed) →
      ∃ e, alookup (GenerateArtifacts p s tms).Entries (entryKey tms) = some e ∧
        ∀ n ∈ p.Nodes, (alookup e.Wallets n.Name).isSome) := by
  unfold GenerateArtifacts
  dsimp only
  rcases hsetup : (p.GetCryptoMaterialGenerator tms.Driver).Setup tms with m | root
  · dsimp only
    refine ⟨?_, ?_, ?_, ?_⟩
    · intro hc
      exact absurd rfl hc
    · intro _
      exact ⟨_, GetEntry_lookup s tms, rfl⟩
    · intro hc
      exact absurd hc (by decide)
    · intro hc
      rcases hc with hc | hc | hc | hc <;> exact absurd hc (by decide)
  · dsimp only
    by_cases hpw : (populateWallets (p.GetCryptoMaterialGenerator tms.Driver) tms
        p.Nodes (GetEntry s tms).1.Wallets).2 = true
    · have hp : populateWallets (p.GetCryptoMaterialGenerator tms.Driver) tms
          p.Nodes (GetEntry s tms).1.Wallets
          = ((populateWallets (p.GetCryptoMaterialGenerator tms.Driver) tms
              p.Nodes (GetEntry s tms).1.Wallets).1, true) := by
        rw [← hpw]
      have hall := (populateWallets_mem _ _ _ _ _ hp).1
      rw [if_pos hpw]
      rcases hgen : p.GetPublicParamsGenerators tms.Driver with _ | ppg
      · dsimp only
        refine ⟨?_, ?_, ?_, ?_⟩
        · intro hc
          exact absurd rfl hc
        · intro _
          exact ⟨_, alookup_aupdate_of_found _ _ _ _ (GetEntry_lookup s tms), rfl⟩
        · intro hc
          exact absurd hc (by decide)
        · intro _
          exact ⟨_, alookup_aupdate_of_found _ _ _ _ (GetEntry_lookup s tms),
            fun n hn => hall n hn⟩
      · dsimp only
        rcases hpp : ppg.Generate tms (root :: tms.PublicParamsGenArgs) with m | ppRaw
        · dsimp only
          refine ⟨?_, ?_, ?_, ?_⟩
          · intro hc
            exact absurd rfl hc
          · intro _
            exact ⟨_, alookup_aupdate_of_found _ _ _ _ (GetEntry_lookup s tms), rfl⟩
          · intro hc
            exact absurd hc (by decide)
          · intro _
            exact ⟨_, alookup_aupdate_of_found _ _ _ _ (GetEntry_lookup s tms),
              fun n hn => hall n hn⟩
        · dsimp only
          rcases hmk : p.MkdirAll p.PublicParametersDir with m | u
          · dsimp only
            refine ⟨?_, ?_, ?_, ?_⟩
            · intro hc
              exact absurd rfl hc
            · intro _
              exact ⟨_, alookup_aupdate_of_found _ _ _ _ (GetEntry_lookup s tms), rfl⟩
            · intro hc
              exact absurd hc (by decide)
            · intro _
              exact ⟨_, alookup_aupdate_of_found _ _ _ _ (GetEntry_lookup s tms),
                fun n hn => hall n hn⟩
          · dsimp only
            rcases hwr : p.WriteFile (p.PublicParametersFile tms) ppRaw with m | u
            · dsimp only
              refine ⟨?_, ?_, ?_, ?_⟩
              · intro _
                exact ⟨_, alookup_aupdate_of_found _ _ _ _ (GetEntry_lookup s tms),
                  fun n hn => hall n hn⟩
              · intro _
                exact ⟨_, alookup_aupdate_of_found _ _ _ _ (GetEntry_lookup s tms), rfl⟩
              · intro hc
                exact absurd hc (by decide)
              · intro _
                exact ⟨_, alookup_aupdate_of_found _ _ _ _ (GetEntry_lookup s tms),
                  fun n hn => hall n hn⟩
            · dsimp only
              refine ⟨?_, ?_, ?_, ?_⟩
              · intro _
                exact ⟨_, alookup_aupdate_of_found _ _ _ _
                    (alookup_aupdate_of_found _ _ _ _ (GetEntry_lookup s tms)),
                  fun n hn => hall n hn⟩
              · intro hc
                exact absurd rfl hc
              · intro _
                exact ⟨_, alookup_aupdate_of_found _ _ _ _
                    (alookup_aupdate_of_found _ _ _ _ (GetEntry_lookup s tms)),
                  rfl, fun n hn => hall n hn, ppRaw, rfl⟩
              · intro hc
                rcases hc with hc | hc | hc | hc <;> exact absurd hc (by decide)
    · rw [if_neg hpw]
      dsimp only
      refine ⟨?_, ?_, ?_, ?_⟩
      · intro hc
        exact absurd rfl hc
      · intro _
        exact ⟨_, alookup_aupdate_of_found _ _ _ _ (GetEntry_lookup s tms), rfl⟩
      · intro hc
        exact absurd hc (by decide)
      · intro hc
        rcases hc with hc | hc | hc | hc <;> exact absurd hc (by decide)

/-- C6 witness: on the concrete all-succeeding platform the run
completes with TCC set, wallets for every node, and the mkdir/write
event pair. -/
theorem generateArtifacts_state_machine_witness :
    ∃ e, alookup (GenerateArtifacts pOkC [] tms0c).Entries (entryKey tms0c) = some e ∧
      e.TCC.isSome ∧
      (∀ n ∈ pOkC.Nodes, (alookup e.Wallets n.Name).isSome) ∧
      ∃ c, (GenerateArtifacts pOkC [] tms0c).events =
        [FSEvent.mkdir pOkC.PublicParametersDir,
         FSEvent.write (pOkC.PublicParametersFile tms0c) c] :=
  (generateArtifacts_state_machine pOkC [] tms0c).2.2.1 (by decide)

end FabricTokenSDK
